import Mathlib

/-!
Verification of the TicketBoss optimistic-concurrency reservation engine.

This file shallowly embeds the core of the repository
(`src/models/event.model.ts`, `src/models/reservation.model.ts`,
`src/repositories/event.repository.ts`,
`src/repositories/reservation.repository.ts`,
`src/services/reservation.service.ts`, `src/db/database.ts` seeding) and
proves the specification's claims about it.

Modelling conventions:
* The MongoDB collections are lists of records inside a `DB` structure.
  `findOne` is `List.find?` on the collection; `updateOne` updates the first
  document matching the filter (`updateFirst` below) and reports
  `modifiedCount > 0` as a `Bool`.
* `new Date()` is modelled by an ambient logical clock `DB.clock`, ticked
  once per engine call by the `step` wrapper.
* `uuidv4()` is modelled by a fresh-id generator: the k-th generated id is
  `mkId k`, with `DB.nextId` counting ids handed out; uniqueness of
  generated uuids is the contract assumed by the source.
* A MongoDB transaction commits or aborts atomically, so a service call is a
  function `DB → Except Err (α × DB)`: the `.ok` branch is the committed
  state, and `.error` carries no state because `abortTransaction` discards
  every write of the session.
* Numbers stored in MongoDB documents are modelled as `Int` (seat deltas may
  be negative).
-/

/-! ### Data model (event.model.ts, reservation.model.ts) -/

/-- A document of the `Event` collection (`src/models/event.model.ts`).
`updated_at` is the timestamps field maintained by the update operations;
the event's own `created_at` plays no role in the engine and is omitted. -/
structure Event where
  event_id : String
  name : String
  total_seats : Int
  available_seats : Int
  version : Int
  updated_at : Nat
deriving DecidableEq, Repr

/-- Reservation status (`src/models/reservation.model.ts`):
`'confirmed' | 'cancelled'`. -/
inductive ReservationStatus where
  | confirmed
  | cancelled
deriving DecidableEq, Repr

/-- A document of the `Reservation` collection
(`src/models/reservation.model.ts`). -/
structure Reservation where
  reservation_id : String
  event_id : String
  partner_id : String
  seats : Int
  status : ReservationStatus
  created_at : Nat
  cancelled_at : Option Nat
deriving DecidableEq, Repr

/-- The storage state: the two MongoDB collections, plus the ambient
uuid-freshness counter and logical clock (see the module conventions). -/
structure DB where
  events : List Event
  reservations : List Reservation
  nextId : Nat
  clock : Nat
deriving DecidableEq, Repr

/-- The k-th id handed out by the uuid generator.  `uuidv4()` is modelled as
a fresh-id source; all that the source relies on is that generated ids never
collide, which injectivity of `mkId` provides. -/
def mkId (k : Nat) : String :=
  String.mk (List.replicate k 'u')

/-- Error taxonomy of the service layer: the `ERROR_MESSAGES` constants the
service throws (`src/config/constants.ts`). -/
inductive Err where
  | eventNotFound
  | notEnoughSeats
  | concurrentUpdate
  | reservationNotFound
deriving DecidableEq, Repr

/-- The message string attached to each thrown error
(`ERROR_MESSAGES` in `src/config/constants.ts`). -/
def Err.message : Err → String
  | .eventNotFound => "Event not found"
  | .notEnoughSeats => "Not enough seats left"
  | .concurrentUpdate => "Concurrent update detected, please retry"
  | .reservationNotFound => "Reservation not found or already cancelled"

/-! ### Generic MongoDB `updateOne` -/

/-- MongoDB `updateOne`: apply `f` to the first element satisfying the
filter `p`, returning whether a document was modified (`modifiedCount > 0`)
together with the new collection.  (All updates in this code base change at
least one field of a matched document, so matched and modified coincide.) -/
def updateFirst (p : α → Bool) (f : α → α) : List α → Bool × List α
  | [] => (false, [])
  | a :: l =>
    if p a then (true, f a :: l)
    else
      let r := updateFirst p f l
      (r.fst, a :: r.snd)

/-! ### Event repository (event.repository.ts) -/

/-- The filter `{ event_id: eventId }`. -/
def hasEventId (eventId : String) (e : Event) : Bool :=
  decide (e.event_id = eventId)

/-- The filter of the `updateSeatsWithVersion` query: `event_id = eventId`,
`version = currentVersion`, and the `$expr` bound
`available_seats + seatsChange ≥ 0`. -/
def seatsFilter (eventId : String) (seatsChange currentVersion : Int)
    (e : Event) : Bool :=
  hasEventId eventId e && decide (e.version = currentVersion)
    && decide (0 ≤ e.available_seats + seatsChange)

/-- The update document of `updateSeatsWithVersion`:
`$inc available_seats, version` and `$set updated_at` (at time `t`). -/
def applySeats (seatsChange : Int) (t : Nat) (e : Event) : Event :=
  { e with
    available_seats := e.available_seats + seatsChange
    version := e.version + 1
    updated_at := t }

namespace EventRepository

/-- `EventModel.findOne({ event_id: eventId })`. -/
def findById (eventId : String) (db : DB) : Option Event :=
  db.events.find? (hasEventId eventId)

/-- `updateSeatsWithVersion` (`src/repositories/event.repository.ts`):
`updateOne` with filter `seatsFilter`, update `applySeats`; returns
`modifiedCount > 0`. -/
def updateSeatsWithVersion (eventId : String) (seatsChange : Int)
    (currentVersion : Int) (db : DB) : Bool × DB :=
  let r := updateFirst (seatsFilter eventId seatsChange currentVersion)
    (applySeats seatsChange db.clock) db.events
  (r.fst, { db with events := r.snd })

/-- `getReservationCount`: `countDocuments({ event_id, status: 'confirmed' })`. -/
def getReservationCount (eventId : String) (db : DB) : Nat :=
  (db.reservations.filter (fun r =>
    decide (r.event_id = eventId) && decide (r.status = .confirmed))).length

end EventRepository

/-! ### Reservation repository (reservation.repository.ts) -/

/-- The filter `{ reservation_id: reservationId }`. -/
def hasReservationId (reservationId : String) (r : Reservation) : Bool :=
  decide (r.reservation_id = reservationId)

/-- The filter `{ reservation_id, status: 'confirmed' }`. -/
def confirmedFilter (reservationId : String) (r : Reservation) : Bool :=
  hasReservationId reservationId r && decide (r.status = .confirmed)

/-- The update document of `cancel`:
`$set { status: 'cancelled', cancelled_at: new Date() }` (at time `t`). -/
def applyCancelled (t : Nat) (r : Reservation) : Reservation :=
  { r with status := .cancelled, cancelled_at := some t }

namespace ReservationRepository

/-- `create`: insert one reservation document with status `'confirmed'`
(`created_at` comes from the collection timestamps, i.e. the clock). -/
def create (reservationId eventId partnerId : String) (seats : Int)
    (db : DB) : DB :=
  { db with reservations := db.reservations ++
      [{ reservation_id := reservationId
         event_id := eventId
         partner_id := partnerId
         seats := seats
         status := .confirmed
         created_at := db.clock
         cancelled_at := none }] }

/-- `findConfirmedById`: `findOne({ reservation_id, status: 'confirmed' })`. -/
def findConfirmedById (reservationId : String) (db : DB) : Option Reservation :=
  db.reservations.find? (confirmedFilter reservationId)

/-- `cancel`: `updateOne({ reservation_id }, { $set: { status: 'cancelled',
cancelled_at: new Date() } })`; returns `modifiedCount > 0`. -/
def cancel (reservationId : String) (db : DB) : Bool × DB :=
  let r := updateFirst (hasReservationId reservationId)
    (applyCancelled db.clock) db.reservations
  (r.fst, { db with reservations := r.snd })

end ReservationRepository

/-! ### Service layer (reservation.service.ts) -/

namespace ReservationService

/-- `reserveSeats` (`src/services/reservation.service.ts`, lines 21-71):
find the event, check availability, optimistic-locking seat decrement,
insert the reservation, commit.  Every `throw` aborts the transaction, so
the `.error` branches carry no state. -/
def reserveSeats (eventId partnerId : String) (seats : Int) (db : DB) :
    Except Err (String × DB) :=
  match EventRepository.findById eventId db with
  | none => .error .eventNotFound
  | some event =>
    if event.available_seats < seats then .error .notEnoughSeats
    else
      let upd := EventRepository.updateSeatsWithVersion eventId (-seats)
        event.version db
      if !upd.fst then .error .concurrentUpdate
      else
        let reservationId := mkId db.nextId
        let db2 := ReservationRepository.create reservationId eventId
          partnerId seats upd.snd
        .ok (reservationId, { db2 with nextId := db2.nextId + 1 })

/-- `cancelReservation` (`src/services/reservation.service.ts`, lines
77-120): find the confirmed reservation, find the event, mark the
reservation cancelled, return the seats with optimistic locking, commit.
The Boolean result of `ReservationRepository.cancel` is discarded, exactly
as in the source (line 97 awaits it without inspecting it). -/
def cancelReservation (reservationId : String) (db : DB) : Except Err DB :=
  match ReservationRepository.findConfirmedById reservationId db with
  | none => .error .reservationNotFound
  | some reservation =>
    match EventRepository.findById reservation.event_id db with
    | none => .error .eventNotFound
    | some event =>
      let marked := ReservationRepository.cancel reservationId db
      let upd := EventRepository.updateSeatsWithVersion reservation.event_id
        reservation.seats event.version marked.snd
      if !upd.fst then .error .concurrentUpdate
      else .ok upd.snd

/-- The summary returned by `getEventSummary` (`src/types`). -/
structure EventSummary where
  eventId : String
  name : String
  totalSeats : Int
  availableSeats : Int
  reservationCount : Nat
  version : Int
deriving DecidableEq, Repr

/-- `getEventSummary`: read-only snapshot of the event plus the confirmed
reservation count. -/
def getEventSummary (eventId : String) (db : DB) : Option EventSummary :=
  match EventRepository.findById eventId db with
  | none => none
  | some event =>
    some { eventId := event.event_id
           name := event.name
           totalSeats := event.total_seats
           availableSeats := event.available_seats
           reservationCount := EventRepository.getReservationCount eventId db
           version := event.version }

/-- The projection returned for each reservation by `getAllReservations`. -/
structure ReservationView where
  reservationId : String
  partnerId : String
  seats : Int
  status : ReservationStatus
  createdAt : Nat
deriving DecidableEq, Repr

/-- The sort order of `.sort({ created_at: -1 })`: newest first. -/
def newestFirst (a b : Reservation) : Prop :=
  b.created_at ≤ a.created_at

instance : DecidableRel newestFirst :=
  fun a b => inferInstanceAs (Decidable (b.created_at ≤ a.created_at))

instance : IsTotal Reservation newestFirst :=
  ⟨fun a b => Nat.le_total b.created_at a.created_at⟩

instance : IsTrans Reservation newestFirst :=
  ⟨fun _ _ _ h1 h2 => Nat.le_trans h2 h1⟩

/-- Projection of a stored reservation to its API view. -/
def toView (r : Reservation) : ReservationView :=
  { reservationId := r.reservation_id
    partnerId := r.partner_id
    seats := r.seats
    status := r.status
    createdAt := r.created_at }

/-- `getAllReservations` (`src/services/reservation.service.ts`, lines
143-160): `find({ event_id }).sort({ created_at: -1 })` projected to views.
The MongoDB descending sort is modelled by insertion sort under
`newestFirst`. -/
def getAllReservations (eventId : String) (db : DB) : List ReservationView :=
  ((db.reservations.filter (fun r => decide (r.event_id = eventId))).insertionSort
    newestFirst).map toView

end ReservationService

/-! ### Control-flow skeletons of the two transactional service methods.

Under concurrent execution the repository calls inside a transaction return
whatever the race decides, so the service body is exactly a function of
those call results.  These definitions are the bodies of `reserveSeats` and
`cancelReservation` with each repository call result abstracted as a
parameter; they are used to settle the claims about branches that a
sequential execution cannot reach (a lost version race, a vanished pool). -/

/-- Control flow of `reserveSeats` as a function of the results of its two
repository calls: the event lookup and the conditional seat update. -/
def reserveFlow (findResult : Option Event) (adjustResult : Bool)
    (newId : String) (seats : Int) : Except Err String :=
  match findResult with
  | none => .error .eventNotFound
  | some event =>
    if event.available_seats < seats then .error .notEnoughSeats
    else if !adjustResult then .error .concurrentUpdate
    else .ok newId

/-- Control flow of `cancelReservation` as a function of the results of its
four repository calls.  `markResult` is the Boolean returned by
`ReservationRepository.cancel` (the `markCancelled` primitive); the source
awaits that call on line 97 without binding its result, so `markResult`
does not appear on the right-hand side. -/
def cancelFlow (findReservation : Option Reservation)
    (findEvent : Option Event) (markResult : Bool) (adjustResult : Bool) :
    Except Err Unit :=
  match findReservation with
  | none => .error .reservationNotFound
  | some _ =>
    match findEvent with
    | none => .error .eventNotFound
    | some _ =>
      if !adjustResult then .error .concurrentUpdate
      else .ok ()

/-! ### The engine as a state machine -/

/-- `APP_CONFIG.DEFAULT_EVENT_ID`: the single pool of this deployment. -/
def DEFAULT_EVENT_ID : String := "node-meetup-2025"

/-- One external engine call, with the arguments the (validated) HTTP layer
passes through. -/
inductive Op where
  | reserve (partnerId : String) (seats : Int)
  | cancel (reservationId : String)
  | summarize
  | list

/-- The externally observable outcome of one engine call. -/
inductive StepOutcome where
  | reserved (reservationId : String)
  | cancelDone
  | summary (s : Option ReservationService.EventSummary)
  | listing (l : List ReservationService.ReservationView)
  | failed (e : Err)
deriving DecidableEq, Repr

/-- Advance the ambient clock: each engine call happens at a later
`new Date()` than the previous one. -/
def tick (db : DB) : DB :=
  { db with clock := db.clock + 1 }

/-- One engine call: run the service method in a transaction; on `.ok` the
transaction commits, on `.error` it aborts and storage is as before. -/
def step (db : DB) (op : Op) : StepOutcome × DB :=
  match op with
  | .reserve partnerId seats =>
    match ReservationService.reserveSeats DEFAULT_EVENT_ID partnerId seats db with
    | .ok (rid, db2) => (.reserved rid, tick db2)
    | .error e => (.failed e, tick db)
  | .cancel rid =>
    match ReservationService.cancelReservation rid db with
    | .ok db2 => (.cancelDone, tick db2)
    | .error e => (.failed e, tick db)
  | .summarize => (.summary (ReservationService.getEventSummary DEFAULT_EVENT_ID db), tick db)
  | .list => (.listing (ReservationService.getAllReservations DEFAULT_EVENT_ID db), tick db)

/-- The document created by `seedData` (`src/db/database.ts`): the event
`node-meetup-2025` with 500 seats, all available, version 0. -/
def seedEvent : Event :=
  { event_id := DEFAULT_EVENT_ID
    name := "Node.js Meet-up"
    total_seats := 500
    available_seats := 500
    version := 0
    updated_at := 0 }

/-- The seeded initial state (`seedData` in `src/db/database.ts`): the one
seeded event and no reservations. -/
def initialDB : DB :=
  { events := [seedEvent]
    reservations := []
    nextId := 0
    clock := 1 }

/-- States reachable from the seeded state by engine calls.  Reserve calls
carry the bounds enforced by `validateReservationRequest`
(`src/middleware/validation.ts`): `seats` is an integer in `[1, 10]`. -/
inductive Reachable : DB → Prop where
  | init : Reachable initialDB
  | reserve {db : DB} (partnerId : String) (seats : Int) :
      Reachable db → 1 ≤ seats → seats ≤ 10 →
      Reachable (step db (.reserve partnerId seats)).snd
  | cancel {db : DB} (reservationId : String) :
      Reachable db → Reachable (step db (.cancel reservationId)).snd
  | summarize {db : DB} : Reachable db → Reachable (step db .summarize).snd
  | list {db : DB} : Reachable db → Reachable (step db .list).snd

/-- Sum of `seats` over the confirmed reservations of one event: the
quantity the central balance invariant compares `available_seats` against. -/
def confirmedSum (eventId : String) (rs : List Reservation) : Int :=
  ((rs.filter (fun r =>
    decide (r.event_id = eventId) && decide (r.status = .confirmed))).map
      (fun r => r.seats)).sum

/-- The inductive invariant of the engine: reservation ids are generated
fresh and are unique, stored seat counts are positive, event ids are unique
(the collection has a unique index on `event_id`), each pool's
`available_seats` equals capacity minus the confirmed seats, and is
non-negative. -/
structure EngineInv (db : DB) : Prop where
  fresh : ∀ r ∈ db.reservations, ∃ k, k < db.nextId ∧ r.reservation_id = mkId k
  rNodup : (db.reservations.map Reservation.reservation_id).Nodup
  seatsPos : ∀ r ∈ db.reservations, 1 ≤ r.seats
  eNodup : (db.events.map Event.event_id).Nodup
  balance : ∀ e ∈ db.events,
    e.available_seats = e.total_seats - confirmedSum e.event_id db.reservations
  nonneg : ∀ e ∈ db.events, 0 ≤ e.available_seats

/-- A pool at full capacity, used to exhibit that the conditional update
does not enforce the upper bound `available ≤ capacity`. -/
def overfillDB : DB :=
  { events := [{ event_id := "e1"
                 name := "n"
                 total_seats := 10
                 available_seats := 10
                 version := 0
                 updated_at := 0 }]
    reservations := []
    nextId := 0
    clock := 7 }

/-- A ledger holding one cancelled reservation, to exercise the not-found
policy of C8 on both a cancelled and an unknown id. -/
def cancelledOnlyDB : DB :=
  { events := []
    reservations := [{ reservation_id := "a"
                       event_id := "e1"
                       partner_id := "p"
                       seats := 1
                       status := .cancelled
                       created_at := 0
                       cancelled_at := some 1 }]
    nextId := 1
    clock := 2 }

/-- The committed state after reserving 5 seats on the seeded state. -/
def reservedDB : DB :=
  { events := [{ event_id := DEFAULT_EVENT_ID
                 name := "Node.js Meet-up"
                 total_seats := 500
                 available_seats := 495
                 version := 1
                 updated_at := 1 }]
    reservations := [{ reservation_id := mkId 0
                       event_id := DEFAULT_EVENT_ID
                       partner_id := "p1"
                       seats := 5
                       status := .confirmed
                       created_at := 1
                       cancelled_at := none }]
    nextId := 1
    clock := 1 }

/-! ### Generic lemmas about `updateFirst`, `find?`, `mkId`, `confirmedSum` -/

theorem mkId_injective {a b : Nat} (h : mkId a = mkId b) : a = b := by
  have h2 := congrArg (fun s => s.data.length) h
  simpa [mkId] using h2

theorem updateFirst_all_false {α : Type} {p : α → Bool} {f : α → α}
    {l : List α} (h : ∀ a ∈ l, p a = false) : updateFirst p f l = (false, l) := by
  induction l with
  | nil => rfl
  | cons a l ih =>
    have ha : p a = false := h a (List.mem_cons_self a l)
    have ih2 := ih (fun x hx => h x (List.mem_cons_of_mem a hx))
    simp [updateFirst, ha, ih2]

theorem updateFirst_append_false {α : Type} {p : α → Bool} {f : α → α}
    {l1 : List α} (l2 : List α) (h : ∀ a ∈ l1, p a = false) :
    updateFirst p f (l1 ++ l2) =
      ((updateFirst p f l2).fst, l1 ++ (updateFirst p f l2).snd) := by
  induction l1 with
  | nil => rfl
  | cons a l ih =>
    have ha : p a = false := h a (List.mem_cons_self a l)
    have ih2 := ih (fun x hx => h x (List.mem_cons_of_mem a hx))
    simp [updateFirst, ha, ih2]

theorem updateFirst_cons_pos {α : Type} {p : α → Bool} {f : α → α} {a : α}
    (l : List α) (h : p a = true) : updateFirst p f (a :: l) = (true, f a :: l) := by
  simp [updateFirst, h]

theorem find?_split {α : Type} {p : α → Bool} {l : List α} {a : α}
    (h : l.find? p = some a) :
    ∃ l1 l2, l = l1 ++ a :: l2 ∧ ∀ x ∈ l1, p x = false := by
  induction l with
  | nil => simp at h
  | cons b l ih =>
    by_cases hb : p b
    · rw [List.find?_cons_of_pos _ hb] at h
      cases h
      exact ⟨[], l, rfl, by simp⟩
    · rw [List.find?_cons_of_neg _ hb] at h
      obtain ⟨l1, l2, rfl, hl1⟩ := ih h
      refine ⟨b :: l1, l2, rfl, ?_⟩
      intro x hx
      rcases List.mem_cons.mp hx with rfl | hx
      · simpa using hb
      · exact hl1 x hx

theorem find?_append_false {α : Type} {p : α → Bool} {l1 l2 : List α}
    (h : ∀ a ∈ l1, p a = false) : (l1 ++ l2).find? p = l2.find? p := by
  induction l1 with
  | nil => rfl
  | cons a l ih =>
    have ha : p a = false := h a (List.mem_cons_self a l)
    rw [List.cons_append, List.find?_cons_of_neg _ (by simp [ha])]
    exact ih (fun x hx => h x (List.mem_cons_of_mem a hx))

theorem confirmedSum_append (eventId : String) (l1 l2 : List Reservation) :
    confirmedSum eventId (l1 ++ l2) =
      confirmedSum eventId l1 + confirmedSum eventId l2 := by
  simp [confirmedSum, List.filter_append]

theorem confirmedSum_cons (eventId : String) (r : Reservation)
    (l : List Reservation) :
    confirmedSum eventId (r :: l) =
      (if r.event_id = eventId ∧ r.status = .confirmed then r.seats else 0) +
        confirmedSum eventId l := by
  by_cases h : r.event_id = eventId ∧ r.status = .confirmed
  · simp [confirmedSum, List.filter_cons, h]
  · simp only [confirmedSum, List.filter_cons]
    rw [if_neg h]
    have : (decide (r.event_id = eventId) && decide (r.status = .confirmed)) = false := by
      rcases Decidable.not_and_iff_or_not.mp h with h1 | h1 <;> simp [h1]
    simp [this]

theorem confirmedSum_nonneg {eventId : String} {l : List Reservation}
    (h : ∀ r ∈ l, 1 ≤ r.seats) : 0 ≤ confirmedSum eventId l := by
  refine List.sum_nonneg ?_
  intro x hx
  obtain ⟨r, hr, rfl⟩ := List.mem_map.mp hx
  have hr2 := List.mem_filter.mp hr
  exact le_trans zero_le_one (h r hr2.1)

theorem nodup_split_ne {α β : Type} {g : α → β} {l l1 l2 : List α} {a : α}
    (hnd : (l.map g).Nodup) (hsplit : l = l1 ++ a :: l2) :
    (∀ x ∈ l1, g x ≠ g a) ∧ (∀ x ∈ l2, g x ≠ g a) := by
  subst hsplit
  rw [List.map_append, List.nodup_append] at hnd
  obtain ⟨h1, h2, hdisj⟩ := hnd
  refine ⟨?_, ?_⟩
  · intro x hx hgx
    exact hdisj (List.mem_map_of_mem _ hx)
      (by rw [hgx]; exact List.mem_cons_self _ _)
  · intro x hx hgx
    have hmem := (List.nodup_cons.mp h2).1
    exact hmem (by rw [← hgx]; exact List.mem_map_of_mem _ hx)

/-! ### Characterization of the repository operations -/

/-- A successful `findById` returns a member event carrying the requested
id. -/
theorem findById_facts {eventId : String} {db : DB} {e : Event}
    (h : EventRepository.findById eventId db = some e) :
    e ∈ db.events ∧ e.event_id = eventId := by
  refine ⟨List.mem_of_find?_eq_some h, ?_⟩
  have h2 := List.find?_some h
  simpa [hasEventId] using h2

/-- A successful `findConfirmedById` returns a member reservation carrying
the requested id, with status confirmed. -/
theorem findConfirmedById_facts {rid : String} {db : DB} {r : Reservation}
    (h : ReservationRepository.findConfirmedById rid db = some r) :
    r ∈ db.reservations ∧ r.reservation_id = rid ∧ r.status = .confirmed := by
  refine ⟨List.mem_of_find?_eq_some h, ?_⟩
  have h2 := List.find?_some h
  simpa [confirmedFilter, hasReservationId] using h2

/-- `updateSeatsWithVersion` on a pool id matching no stored event is a
no-op reporting `false`. -/
theorem updateSeats_absent {eventId : String} {Δ v : Int} {db : DB}
    (h : EventRepository.findById eventId db = none) :
    EventRepository.updateSeatsWithVersion eventId Δ v db = (false, db) := by
  have hall : ∀ e ∈ db.events, seatsFilter eventId Δ v e = false := by
    intro e he
    have h2 : ¬ (hasEventId eventId e = true) := List.find?_eq_none.mp h e he
    have h3 : hasEventId eventId e = false := by simpa using h2
    simp [seatsFilter, h3]
  simp [EventRepository.updateSeatsWithVersion, updateFirst_all_false hall]

/-- `updateSeatsWithVersion` when the first event with the requested id
passes the version and bound guards: the write happens, on that event
alone. -/
theorem updateSeats_success {eventId : String} {Δ v : Int} {db : DB}
    {e : Event} (hf : EventRepository.findById eventId db = some e)
    (hv : e.version = v) (hb : 0 ≤ e.available_seats + Δ) :
    ∃ l1 l2, db.events = l1 ++ e :: l2 ∧
      (∀ x ∈ l1, hasEventId eventId x = false) ∧
      EventRepository.updateSeatsWithVersion eventId Δ v db =
        (true, { db with events := l1 ++ applySeats Δ db.clock e :: l2 }) := by
  obtain ⟨l1, l2, hsplit, hl1⟩ := find?_split hf
  have hl1f : ∀ x ∈ l1, seatsFilter eventId Δ v x = false := by
    intro x hx
    simp [seatsFilter, hl1 x hx]
  have hpe : seatsFilter eventId Δ v e = true := by
    have he : hasEventId eventId e = true := List.find?_some hf
    simp [seatsFilter, he, hv, hb]
  refine ⟨l1, l2, hsplit, hl1, ?_⟩
  simp only [EventRepository.updateSeatsWithVersion]
  rw [hsplit, updateFirst_append_false _ hl1f, updateFirst_cons_pos _ hpe]

/-- `updateSeatsWithVersion` when the (unique) event with the requested id
fails the version or bound guard: a no-op reporting `false`. -/
theorem updateSeats_fail {eventId : String} {Δ v : Int} {db : DB} {e : Event}
    (hf : EventRepository.findById eventId db = some e)
    (hnd : (db.events.map Event.event_id).Nodup)
    (hmiss : seatsFilter eventId Δ v e = false) :
    EventRepository.updateSeatsWithVersion eventId Δ v db = (false, db) := by
  obtain ⟨l1, l2, hsplit, hl1⟩ := find?_split hf
  have he : hasEventId eventId e = true := List.find?_some hf
  have heid : e.event_id = eventId := by simpa [hasEventId] using he
  have hl2 := (nodup_split_ne hnd hsplit).2
  have hall : ∀ x ∈ db.events, seatsFilter eventId Δ v x = false := by
    intro x hx
    rw [hsplit] at hx
    rcases List.mem_append.mp hx with hx | hx
    · simp [seatsFilter, hl1 x hx]
    · rcases List.mem_cons.mp hx with rfl | hx
      · exact hmiss
      · have hxne : x.event_id ≠ eventId := by
          rw [← heid]; exact hl2 x hx
        simp [seatsFilter, hasEventId, hxne]
  simp [EventRepository.updateSeatsWithVersion, updateFirst_all_false hall]

/-- `ReservationRepository.cancel` when `findConfirmedById` found `r` and
reservation ids are unique: it flips exactly `r`. -/
theorem cancel_hits {rid : String} {db : DB} {r : Reservation}
    (hf : ReservationRepository.findConfirmedById rid db = some r)
    (hnd : (db.reservations.map Reservation.reservation_id).Nodup) :
    ∃ m1 m2, db.reservations = m1 ++ r :: m2 ∧
      (∀ x ∈ m1, hasReservationId rid x = false) ∧
      ReservationRepository.cancel rid db =
        (true, { db with reservations := m1 ++ applyCancelled db.clock r :: m2 }) := by
  obtain ⟨m1, m2, hsplit, hm1⟩ := find?_split hf
  obtain ⟨-, hrid, -⟩ := findConfirmedById_facts hf
  have hne := (nodup_split_ne hnd hsplit).1
  have hm1f : ∀ x ∈ m1, hasReservationId rid x = false := by
    intro x hx
    have hxne : x.reservation_id ≠ rid := by
      rw [← hrid]; exact hne x hx
    simp [hasReservationId, hxne]
  have hpr : hasReservationId rid r = true := by
    simp [hasReservationId, hrid]
  refine ⟨m1, m2, hsplit, hm1f, ?_⟩
  simp only [ReservationRepository.cancel]
  rw [hsplit, updateFirst_append_false _ hm1f, updateFirst_cons_pos _ hpr]

/-! ### Characterization of the service operations -/

/-- `reserveSeats` fails with `EVENT_NOT_FOUND` when the pool is absent. -/
theorem reserveSeats_absent {eventId partnerId : String} {seats : Int}
    {db : DB} (hf : EventRepository.findById eventId db = none) :
    ReservationService.reserveSeats eventId partnerId seats db =
      .error .eventNotFound := by
  simp [ReservationService.reserveSeats, hf]

/-- `reserveSeats` fails with `NOT_ENOUGH_SEATS` when the availability
check fails. -/
theorem reserveSeats_insufficient {eventId partnerId : String} {seats : Int}
    {db : DB} {e : Event} (hf : EventRepository.findById eventId db = some e)
    (hav : e.available_seats < seats) :
    ReservationService.reserveSeats eventId partnerId seats db =
      .error .notEnoughSeats := by
  simp [ReservationService.reserveSeats, hf, hav]

/-- `reserveSeats` when the event exists and has enough seats: the
transaction commits, decrementing the first matching event and appending
one fresh confirmed reservation whose id is returned. -/
theorem reserveSeats_success {eventId partnerId : String} {seats : Int}
    {db : DB} {e : Event}
    (hf : EventRepository.findById eventId db = some e)
    (hav : ¬ e.available_seats < seats) :
    ∃ l1 l2, db.events = l1 ++ e :: l2 ∧
      (∀ x ∈ l1, hasEventId eventId x = false) ∧
      ReservationService.reserveSeats eventId partnerId seats db =
        .ok (mkId db.nextId,
          { events := l1 ++ applySeats (-seats) db.clock e :: l2
            reservations := db.reservations ++
              [{ reservation_id := mkId db.nextId
                 event_id := eventId
                 partner_id := partnerId
                 seats := seats
                 status := .confirmed
                 created_at := db.clock
                 cancelled_at := none }]
            nextId := db.nextId + 1
            clock := db.clock }) := by
  have hb : 0 ≤ e.available_seats + (-seats) := by omega
  obtain ⟨l1, l2, hsplit, hl1, hupd⟩ := updateSeats_success hf rfl hb
  refine ⟨l1, l2, hsplit, hl1, ?_⟩
  simp [ReservationService.reserveSeats, hf, hupd, if_neg hav,
    ReservationRepository.create]

/-- `cancelReservation` fails with `RESERVATION_NOT_FOUND` when no
confirmed reservation carries the id. -/
theorem cancelReservation_notFound {rid : String} {db : DB}
    (hf : ReservationRepository.findConfirmedById rid db = none) :
    ReservationService.cancelReservation rid db =
      .error .reservationNotFound := by
  simp [ReservationService.cancelReservation, hf]

/-- `cancelReservation` fails with `EVENT_NOT_FOUND` when the owning event
is absent. -/
theorem cancelReservation_noEvent {rid : String} {db : DB} {r : Reservation}
    (hf : ReservationRepository.findConfirmedById rid db = some r)
    (he : EventRepository.findById r.event_id db = none) :
    ReservationService.cancelReservation rid db = .error .eventNotFound := by
  simp [ReservationService.cancelReservation, hf, he]

/-- `cancelReservation` when the reservation and its event exist and the
returned seats pass the non-negativity bound: the transaction commits,
flipping the reservation and returning its seats to the event. -/
theorem cancelReservation_success {rid : String} {db : DB} {r : Reservation}
    {e : Event} (hfr : ReservationRepository.findConfirmedById rid db = some r)
    (hndR : (db.reservations.map Reservation.reservation_id).Nodup)
    (hfe : EventRepository.findById r.event_id db = some e)
    (hb : 0 ≤ e.available_seats + r.seats) :
    ∃ m1 m2 l1 l2, db.reservations = m1 ++ r :: m2 ∧
      db.events = l1 ++ e :: l2 ∧
      (∀ x ∈ m1, hasReservationId rid x = false) ∧
      (∀ x ∈ l1, hasEventId r.event_id x = false) ∧
      ReservationService.cancelReservation rid db =
        .ok { events := l1 ++ applySeats r.seats db.clock e :: l2
              reservations := m1 ++ applyCancelled db.clock r :: m2
              nextId := db.nextId
              clock := db.clock } := by
  obtain ⟨m1, m2, hmsplit, hm1, hmark⟩ := cancel_hits hfr hndR
  have hfe2 : EventRepository.findById r.event_id
      { db with reservations := m1 ++ applyCancelled db.clock r :: m2 } = some e := hfe
  obtain ⟨l1, l2, hlsplit, hl1, hupd⟩ := updateSeats_success hfe2 rfl hb
  refine ⟨m1, m2, l1, l2, hmsplit, hlsplit, hm1, hl1, ?_⟩
  simp [ReservationService.cancelReservation, hfr, hfe, hmark, hupd]

/-- `cancelReservation` when the returned seats would fail the
non-negativity bound of the conditional update: the transaction aborts with
`CONCURRENT_UPDATE_DETECTED`. -/
theorem cancelReservation_adjustFail {rid : String} {db : DB}
    {r : Reservation} {e : Event}
    (hfr : ReservationRepository.findConfirmedById rid db = some r)
    (hndR : (db.reservations.map Reservation.reservation_id).Nodup)
    (hfe : EventRepository.findById r.event_id db = some e)
    (hndE : (db.events.map Event.event_id).Nodup)
    (hb : e.available_seats + r.seats < 0) :
    ReservationService.cancelReservation rid db =
      .error .concurrentUpdate := by
  obtain ⟨m1, m2, hmsplit, hm1, hmark⟩ := cancel_hits hfr hndR
  have hfe2 : EventRepository.findById r.event_id
      { db with reservations := m1 ++ applyCancelled db.clock r :: m2 } = some e := hfe
  have hmiss : seatsFilter r.event_id r.seats e.version e = false := by
    simp [seatsFilter]
    intro _
    omega
  have hupd := updateSeats_fail hfe2 hndE hmiss
  simp [ReservationService.cancelReservation, hfr, hfe, hmark, hupd]

/-! ### Sum bookkeeping and membership helpers -/

theorem confirmedSum_nil (eventId : String) : confirmedSum eventId [] = 0 := rfl

theorem confirmedSum_snoc (eventId : String) (l : List Reservation)
    (r : Reservation) :
    confirmedSum eventId (l ++ [r]) = confirmedSum eventId l +
      (if r.event_id = eventId ∧ r.status = .confirmed then r.seats else 0) := by
  rw [confirmedSum_append, confirmedSum_cons, confirmedSum_nil, add_zero]

theorem confirmedSum_flip_match {eventId : String} {r : Reservation}
    (m1 m2 : List Reservation) (t : Nat)
    (hid : r.event_id = eventId) (hst : r.status = .confirmed) :
    confirmedSum eventId (m1 ++ applyCancelled t r :: m2) =
      confirmedSum eventId (m1 ++ r :: m2) - r.seats := by
  rw [confirmedSum_append, confirmedSum_append, confirmedSum_cons,
    confirmedSum_cons]
  simp [applyCancelled, hid, hst]
  omega

theorem confirmedSum_flip_other {eventId : String} {r : Reservation}
    (m1 m2 : List Reservation) (t : Nat) (hne : r.event_id ≠ eventId) :
    confirmedSum eventId (m1 ++ applyCancelled t r :: m2) =
      confirmedSum eventId (m1 ++ r :: m2) := by
  rw [confirmedSum_append, confirmedSum_append, confirmedSum_cons,
    confirmedSum_cons]
  simp [applyCancelled, hne]

theorem mem_split_cases {α : Type} {x b : α} {l1 l2 : List α}
    (hx : x ∈ l1 ++ b :: l2) : x = b ∨ x ∈ l1 ∨ x ∈ l2 := by
  rcases List.mem_append.mp hx with h | h
  · exact .inr (.inl h)
  · rcases List.mem_cons.mp h with h | h
    · exact .inl h
    · exact .inr (.inr h)

theorem mem_split_other {α : Type} {x : α} (b : α) {l1 l2 : List α}
    (hx : x ∈ l1 ∨ x ∈ l2) : x ∈ l1 ++ b :: l2 := by
  rcases hx with h | h
  · exact List.mem_append_left _ h
  · exact List.mem_append_right _ (List.mem_cons_of_mem _ h)

theorem mem_split_self {α : Type} (b : α) (l1 l2 : List α) :
    b ∈ l1 ++ b :: l2 :=
  List.mem_append_right _ (List.mem_cons_self _ _)

/-! ### The engine invariant -/

/-- The seeded state satisfies the invariant. -/
theorem inv_initialDB : EngineInv initialDB := by
  constructor <;> simp [initialDB, seedEvent, confirmedSum]

/-- The invariant does not mention the clock. -/
theorem inv_tick {db : DB} (h : EngineInv db) : EngineInv (tick db) := by
  obtain ⟨h1, h2, h3, h4, h5, h6⟩ := h
  exact ⟨h1, h2, h3, h4, h5, h6⟩

/-- A committed `reserveSeats` preserves the invariant. -/
theorem inv_reserveSeats {eventId partnerId : String} {seats : Int}
    {db db2 : DB} {rid : String} (hinv : EngineInv db) (hpos : 1 ≤ seats)
    (hok : ReservationService.reserveSeats eventId partnerId seats db =
      .ok (rid, db2)) : EngineInv db2 := by
  cases hfind : EventRepository.findById eventId db with
  | none => simp [reserveSeats_absent hfind] at hok
  | some e =>
    by_cases hav : e.available_seats < seats
    · simp [reserveSeats_insufficient hfind hav] at hok
    · obtain ⟨l1, l2, hsplit, hl1, hres⟩ :=
        @reserveSeats_success eventId partnerId seats db e hfind hav
      rw [hres] at hok
      injection hok with hok
      injection hok with hok1 hok2
      subst hok2
      have heid : e.event_id = eventId := (findById_facts hfind).2
      have hemem : e ∈ db.events := (findById_facts hfind).1
      constructor
      · -- fresh
        intro x hx
        rcases List.mem_append.mp hx with hx | hx
        · obtain ⟨k, hk, hid⟩ := hinv.fresh x hx
          exact ⟨k, Nat.lt_succ_of_lt hk, hid⟩
        · have hx2 : x = { reservation_id := mkId db.nextId
                           event_id := eventId
                           partner_id := partnerId
                           seats := seats
                           status := .confirmed
                           created_at := db.clock
                           cancelled_at := none } := List.mem_singleton.mp hx
          exact ⟨db.nextId, Nat.lt_succ_self _, by rw [hx2]⟩
      · -- rNodup
        rw [List.map_append, List.nodup_append]
        refine ⟨hinv.rNodup, List.nodup_singleton _, ?_⟩
        intro a ha hb
        obtain ⟨x, hx, rfl⟩ := List.mem_map.mp ha
        obtain ⟨k, hk, hid⟩ := hinv.fresh x hx
        have hxb : x.reservation_id = mkId db.nextId := by simpa using hb
        rw [hid] at hxb
        exact absurd (mkId_injective hxb) (Nat.ne_of_lt hk)
      · -- seatsPos
        intro x hx
        rcases List.mem_append.mp hx with hx | hx
        · exact hinv.seatsPos x hx
        · have hx2 := List.mem_singleton.mp hx
          rw [hx2]
          exact hpos
      · -- eNodup
        have h4 := hinv.eNodup
        rw [hsplit] at h4
        simpa [applySeats] using h4
      · -- balance
        intro x hx
        rcases mem_split_cases hx with rfl | hx2
        · have hold := hinv.balance e hemem
          rw [heid] at hold
          rw [confirmedSum_snoc]
          simp only [applySeats]
          rw [heid]
          simp
          omega
        · have hxmem : x ∈ db.events := by
            rw [hsplit]; exact mem_split_other e hx2
          have hold := hinv.balance x hxmem
          have hxid : x.event_id ≠ eventId := by
            rcases hx2 with hx2 | hx2
            · simpa [hasEventId] using hl1 x hx2
            · have h9 := (nodup_split_ne hinv.eNodup hsplit).2 x hx2
              rw [heid] at h9
              exact h9
          have hne2 : ¬ (eventId = x.event_id) := fun h => hxid h.symm
          rw [confirmedSum_snoc]
          simp [hne2]
          exact hold
      · -- nonneg
        intro x hx
        rcases mem_split_cases hx with rfl | hx2
        · simp only [applySeats]
          simp
          omega
        · have hxmem : x ∈ db.events := by
            rw [hsplit]; exact mem_split_other e hx2
          exact hinv.nonneg x hxmem

/-- A committed `cancelReservation` preserves the invariant. -/
theorem inv_cancelReservation {rid : String} {db db2 : DB}
    (hinv : EngineInv db)
    (hok : ReservationService.cancelReservation rid db = .ok db2) :
    EngineInv db2 := by
  cases hfr : ReservationRepository.findConfirmedById rid db with
  | none => simp [cancelReservation_notFound hfr] at hok
  | some r =>
    cases hfe : EventRepository.findById r.event_id db with
    | none => simp [cancelReservation_noEvent hfr hfe] at hok
    | some e =>
      by_cases hb : 0 ≤ e.available_seats + r.seats
      · obtain ⟨m1, m2, l1, l2, hmsplit, hlsplit, hm1, hl1, hres⟩ :=
          cancelReservation_success hfr hinv.rNodup hfe hb
        rw [hres] at hok
        injection hok with hok
        subst hok
        obtain ⟨hrmem, hr_id, hr_st⟩ := findConfirmedById_facts hfr
        have heid : e.event_id = r.event_id := (findById_facts hfe).2
        have hemem : e ∈ db.events := (findById_facts hfe).1
        have hmemR : ∀ x, x ∈ m1 ∨ x ∈ m2 → x ∈ db.reservations := by
          intro x hx
          rw [hmsplit]
          exact mem_split_other r hx
        constructor
        · -- fresh
          intro x hx
          rcases mem_split_cases hx with rfl | hx2
          · obtain ⟨k, hk, hid⟩ := hinv.fresh r hrmem
            exact ⟨k, hk, by simpa [applyCancelled] using hid⟩
          · exact hinv.fresh x (hmemR x hx2)
        · -- rNodup
          have h2 := hinv.rNodup
          rw [hmsplit] at h2
          simpa [applyCancelled] using h2
        · -- seatsPos
          intro x hx
          rcases mem_split_cases hx with rfl | hx2
          · simpa [applyCancelled] using hinv.seatsPos r hrmem
          · exact hinv.seatsPos x (hmemR x hx2)
        · -- eNodup
          have h4 := hinv.eNodup
          rw [hlsplit] at h4
          simpa [applySeats] using h4
        · -- balance
          intro x hx
          rcases mem_split_cases hx with rfl | hx2
          · have hold := hinv.balance e hemem
            rw [hmsplit] at hold
            simp only [applySeats]
            rw [confirmedSum_flip_match m1 m2 db.clock heid.symm hr_st]
            omega
          · have hxmem : x ∈ db.events := by
              rw [hlsplit]; exact mem_split_other e hx2
            have hold := hinv.balance x hxmem
            rw [hmsplit] at hold
            have hxid : x.event_id ≠ r.event_id := by
              rcases hx2 with hx2 | hx2
              · simpa [hasEventId] using hl1 x hx2
              · have h9 := (nodup_split_ne hinv.eNodup hlsplit).2 x hx2
                rw [heid] at h9
                exact h9
            rw [confirmedSum_flip_other m1 m2 db.clock (fun h => hxid h.symm)]
            exact hold
        · -- nonneg
          intro x hx
          rcases mem_split_cases hx with rfl | hx2
          · simp only [applySeats]
            simpa using hb
          · have hxmem : x ∈ db.events := by
              rw [hlsplit]; exact mem_split_other e hx2
            exact hinv.nonneg x hxmem
      · have hfail := cancelReservation_adjustFail hfr hinv.rNodup hfe
          hinv.eNodup (by omega)
        simp [hfail] at hok

/-- Every engine call preserves the invariant (reserve calls arrive with
validated seat counts). -/
theorem inv_step {db : DB} {op : Op} (hinv : EngineInv db)
    (hval : ∀ pid s, op = .reserve pid s → 1 ≤ s) :
    EngineInv (step db op).snd := by
  cases op with
  | reserve pid s =>
    have hs := hval pid s rfl
    cases hok : ReservationService.reserveSeats DEFAULT_EVENT_ID pid s db with
    | ok v =>
      obtain ⟨rid, db2⟩ := v
      have h2 : EngineInv db2 := inv_reserveSeats hinv hs hok
      simp [step, hok]
      exact inv_tick h2
    | error e =>
      simp [step, hok]
      exact inv_tick hinv
  | cancel rid =>
    cases hok : ReservationService.cancelReservation rid db with
    | ok db2 =>
      have h2 : EngineInv db2 := inv_cancelReservation hinv hok
      simp [step, hok]
      exact inv_tick h2
    | error e =>
      simp [step, hok]
      exact inv_tick hinv
  | summarize =>
    simp [step]
    exact inv_tick hinv
  | list =>
    simp [step]
    exact inv_tick hinv

/-- Every reachable state satisfies the invariant. -/
theorem reachable_inv {db : DB} (h : Reachable db) : EngineInv db := by
  induction h with
  | init => exact inv_initialDB
  | reserve pid s _ h1 _ ih =>
    exact inv_step ih (fun p t heq => by cases heq; exact h1)
  | cancel rid _ ih => exact inv_step ih (fun p t heq => by cases heq)
  | summarize _ ih => exact inv_step ih (fun p t heq => by cases heq)
  | list _ ih => exact inv_step ih (fun p t heq => by cases heq)

/-! ### Full characterization of the conditional update -/

/-- With unique event ids, the conditional update reports `true` exactly
when the stored event passes the version and non-negativity guards. -/
theorem updateSeats_true_iff {eventId : String} {Δ v : Int} {db : DB}
    (hnd : (db.events.map Event.event_id).Nodup) :
    (EventRepository.updateSeatsWithVersion eventId Δ v db).fst = true ↔
      ∃ e, EventRepository.findById eventId db = some e ∧ e.version = v ∧
        0 ≤ e.available_seats + Δ := by
  constructor
  · intro h
    cases hf : EventRepository.findById eventId db with
    | none =>
      rw [updateSeats_absent hf] at h
      simp at h
    | some e =>
      by_cases hv : e.version = v
      · by_cases hb : 0 ≤ e.available_seats + Δ
        · exact ⟨e, rfl, hv, hb⟩
        · have hmiss : seatsFilter eventId Δ v e = false := by
            simp [seatsFilter, hb]
          rw [updateSeats_fail hf hnd hmiss] at h
          simp at h
      · have hmiss : seatsFilter eventId Δ v e = false := by
          simp [seatsFilter, hv]
        rw [updateSeats_fail hf hnd hmiss] at h
        simp at h
  · rintro ⟨e, hf, hv, hb⟩
    obtain ⟨l1, l2, _, _, hupd⟩ := updateSeats_success hf hv hb
    rw [hupd]

/-- With unique event ids, a conditional update that reports `false` left
the whole store untouched. -/
theorem updateSeats_false_noop {eventId : String} {Δ v : Int} {db : DB}
    (hnd : (db.events.map Event.event_id).Nodup)
    (h : (EventRepository.updateSeatsWithVersion eventId Δ v db).fst = false) :
    EventRepository.updateSeatsWithVersion eventId Δ v db = (false, db) := by
  cases hf : EventRepository.findById eventId db with
  | none => exact updateSeats_absent hf
  | some e =>
    by_cases hv : e.version = v
    · by_cases hb : 0 ≤ e.available_seats + Δ
      · obtain ⟨l1, l2, _, _, hupd⟩ := updateSeats_success hf hv hb
        rw [hupd] at h
        simp at h
      · exact updateSeats_fail hf hnd (by simp [seatsFilter, hb])
    · exact updateSeats_fail hf hnd (by simp [seatsFilter, hv])

/-- After a successful conditional update, the stored event carries the
incremented fields and the reservation ledger is untouched. -/
theorem updateSeats_found_after {eventId : String} {Δ v : Int} {db : DB}
    {e : Event} (hf : EventRepository.findById eventId db = some e)
    (hv : e.version = v) (hb : 0 ≤ e.available_seats + Δ) :
    EventRepository.findById eventId
        (EventRepository.updateSeatsWithVersion eventId Δ v db).snd =
      some (applySeats Δ db.clock e) ∧
    (EventRepository.updateSeatsWithVersion eventId Δ v db).snd.reservations =
      db.reservations := by
  obtain ⟨l1, l2, hsplit, hl1, hupd⟩ := updateSeats_success hf hv hb
  rw [hupd]
  refine ⟨?_, rfl⟩
  have hpos : hasEventId eventId (applySeats Δ db.clock e) = true := by
    have h2 : hasEventId eventId e = true := List.find?_some hf
    simpa [hasEventId, applySeats] using h2
  simp only [EventRepository.findById]
  rw [find?_append_false hl1, List.find?_cons_of_pos _ hpos]

/-! ### The claims -/

/-- C1: for every state reachable from the seeded initial state by any
sequence of engine operations (reserve, cancel, summarize, list), every
pool satisfies `0 ≤ available_seats ≤ total_seats` and
`available_seats = total_seats − Σ (seats of its confirmed reservations)`. -/
theorem claim1_pool_invariant {db : DB} (h : Reachable db) :
    ∀ e ∈ db.events, 0 ≤ e.available_seats ∧
      e.available_seats ≤ e.total_seats ∧
      e.available_seats = e.total_seats -
        confirmedSum e.event_id db.reservations := by
  intro e he
  have hinv := reachable_inv h
  have hbal := hinv.balance e he
  have hsum : 0 ≤ confirmedSum e.event_id db.reservations :=
    confirmedSum_nonneg hinv.seatsPos
  exact ⟨hinv.nonneg e he, by omega, hbal⟩

/-- Witness for C1: the invariant evaluated at the seeded initial state. -/
theorem claim1_pool_invariant_witness :
    0 ≤ seedEvent.available_seats ∧
      seedEvent.available_seats ≤ seedEvent.total_seats ∧
      seedEvent.available_seats = seedEvent.total_seats -
        confirmedSum seedEvent.event_id initialDB.reservations :=
  claim1_pool_invariant Reachable.init seedEvent (by decide)

/-- Counterexample to C2 as stated: with capacity 10 and 10 seats
available, a conditional adjust of `+5` at the correct version makes the
write take effect (`true`) and stores `available_seats = 15 > 10`, although
guard (b) of the claim (`0 ≤ available ≤ capacity` after the write) fails,
so the claim predicts `false` with no effect. -/
theorem claim2_counterexample :
    (EventRepository.updateSeatsWithVersion "e1" 5 0 overfillDB).fst = true ∧
    (EventRepository.findById "e1"
      (EventRepository.updateSeatsWithVersion "e1" 5 0 overfillDB).snd).map
        Event.available_seats = some 15 ∧
    (EventRepository.findById "e1" overfillDB).map Event.total_seats =
      some 10 ∧
    ¬ ((15 : Int) ≤ 10) := by
  refine ⟨rfl, rfl, rfl, by decide⟩

/-- C2 (amended): for every delta and expectedVersion, the conditional
adjust applies `available += delta`, increments `version` and updates
`updatedAt` only when (a) the stored version equals `expectedVersion` and
(b) the resulting available satisfies `0 ≤ available` — the upper bound
`available ≤ capacity` is not checked; it returns `true` iff the write took
effect, and on `false` the store is entirely unchanged. -/
theorem claim2_conditional_adjust (eventId : String) (Δ v : Int) (db : DB)
    (e : Event) (hnd : (db.events.map Event.event_id).Nodup) :
    ((EventRepository.updateSeatsWithVersion eventId Δ v db).fst = true ↔
      ∃ e2, EventRepository.findById eventId db = some e2 ∧
        e2.version = v ∧ 0 ≤ e2.available_seats + Δ) ∧
    ((EventRepository.updateSeatsWithVersion eventId Δ v db).fst = false →
      EventRepository.updateSeatsWithVersion eventId Δ v db = (false, db)) ∧
    (EventRepository.findById eventId db = some e → e.version = v →
      0 ≤ e.available_seats + Δ →
      EventRepository.findById eventId
          (EventRepository.updateSeatsWithVersion eventId Δ v db).snd =
        some (applySeats Δ db.clock e) ∧
      (EventRepository.updateSeatsWithVersion eventId Δ v db).snd.reservations
        = db.reservations) := by
  refine ⟨updateSeats_true_iff hnd, updateSeats_false_noop hnd, ?_⟩
  intro hf hv hb
  exact updateSeats_found_after hf hv hb

/-- Witness for C2 (amended), at the seeded state with a delta of −3. -/
theorem claim2_conditional_adjust_witness :
    ((EventRepository.updateSeatsWithVersion DEFAULT_EVENT_ID (-3) 0
        initialDB).fst = true ↔
      ∃ e2, EventRepository.findById DEFAULT_EVENT_ID initialDB = some e2 ∧
        e2.version = 0 ∧ 0 ≤ e2.available_seats + (-3)) ∧
    ((EventRepository.updateSeatsWithVersion DEFAULT_EVENT_ID (-3) 0
        initialDB).fst = false →
      EventRepository.updateSeatsWithVersion DEFAULT_EVENT_ID (-3) 0
        initialDB = (false, initialDB)) ∧
    (EventRepository.findById DEFAULT_EVENT_ID initialDB = some seedEvent →
      seedEvent.version = 0 → 0 ≤ seedEvent.available_seats + (-3) →
      EventRepository.findById DEFAULT_EVENT_ID
          (EventRepository.updateSeatsWithVersion DEFAULT_EVENT_ID (-3) 0
            initialDB).snd =
        some (applySeats (-3) initialDB.clock seedEvent) ∧
      (EventRepository.updateSeatsWithVersion DEFAULT_EVENT_ID (-3) 0
        initialDB).snd.reservations = initialDB.reservations) :=
  claim2_conditional_adjust DEFAULT_EVENT_ID (-3) 0 initialDB seedEvent
    (by decide)

/-- Counterexample to C3 as stated: a `cancelReservation` run in which
`markCancelled` reports no change (`false`) while the version-fenced seat
adjustment succeeds commits with `.ok`, instead of failing with
`ConcurrentModification` as the claim requires.  (`cancelFlow` is the
control flow of `cancelReservation`, source lines 81-112, as a function of
its repository call results; the source line 97 discards the Boolean.) -/
theorem claim3_counterexample :
    cancelFlow
      (some { reservation_id := "r1"
              event_id := "e1"
              partner_id := "p1"
              seats := 2
              status := .confirmed
              created_at := 0
              cancelled_at := none })
      (some { event_id := "e1"
              name := "n"
              total_seats := 10
              available_seats := 5
              version := 3
              updated_at := 0 })
      false true = .ok () ∧
    cancelFlow
      (some { reservation_id := "r1"
              event_id := "e1"
              partner_id := "p1"
              seats := 2
              status := .confirmed
              created_at := 0
              cancelled_at := none })
      (some { event_id := "e1"
              name := "n"
              total_seats := 10
              available_seats := 5
              version := 3
              updated_at := 0 })
      false true ≠ .error .concurrentUpdate :=
  ⟨rfl, fun h => nomatch h⟩

/-- C3 (amended): `cancelReservation` never inspects the Boolean returned
by `markCancelled`; after the reservation and event lookups succeed, the
operation fails with `ConcurrentModification` exactly when the version-
fenced seat adjustment reports `false`, regardless of what `markCancelled`
reported. -/
theorem claim3_mark_result_ignored (r : Reservation) (e : Event)
    (mark1 mark2 adjust : Bool) :
    cancelFlow (some r) (some e) mark1 adjust =
      cancelFlow (some r) (some e) mark2 adjust ∧
    cancelFlow (some r) (some e) mark1 false = .error .concurrentUpdate ∧
    cancelFlow (some r) (some e) mark1 true = .ok () :=
  ⟨rfl, rfl, rfl⟩

/-- C5: any engine call that fails leaves the pool store and the
reservation ledger exactly as they were before the call (the transaction
aborted), and the caller sees only the single error. -/
theorem claim5_rollback_on_failure (db : DB) (op : Op) (err : Err)
    (hfail : (step db op).fst = .failed err) :
    (step db op).snd.events = db.events ∧
    (step db op).snd.reservations = db.reservations := by
  cases op with
  | reserve pid s =>
    cases hok : ReservationService.reserveSeats DEFAULT_EVENT_ID pid s db with
    | ok v =>
      obtain ⟨rid, db2⟩ := v
      simp [step, hok] at hfail
    | error e2 => simp [step, hok, tick]
  | cancel rid =>
    cases hok : ReservationService.cancelReservation rid db with
    | ok db2 => simp [step, hok] at hfail
    | error e2 => simp [step, hok, tick]
  | summarize => simp [step] at hfail
  | list => simp [step] at hfail

/-- Witness for C5: cancelling an unknown id on the seeded state fails and
changes nothing. -/
theorem claim5_rollback_on_failure_witness :
    (step initialDB (.cancel "missing")).fst =
      .failed .reservationNotFound ∧
    (step initialDB (.cancel "missing")).snd.events = initialDB.events ∧
    (step initialDB (.cancel "missing")).snd.reservations =
      initialDB.reservations := by
  refine ⟨by decide, ?_⟩
  exact claim5_rollback_on_failure initialDB (.cancel "missing")
    .reservationNotFound (by decide)

/-- C8: `findConfirmedById` returns a reservation exactly when one with the
requested id and status confirmed is stored, and the returned one is it; a
never-created id and a cancelled id yield the same not-found outcome, so
`cancelReservation` fails with the identical `RESERVATION_NOT_FOUND` error
in both cases. -/
theorem claim8_not_found_indistinguishable (rid : String) (db : DB)
    (r : Reservation) :
    (ReservationRepository.findConfirmedById rid db = some r →
      r ∈ db.reservations ∧ r.reservation_id = rid ∧
        r.status = .confirmed) ∧
    ((∃ r2 ∈ db.reservations, r2.reservation_id = rid ∧
        r2.status = .confirmed) →
      ∃ r2, ReservationRepository.findConfirmedById rid db = some r2) ∧
    (ReservationRepository.findConfirmedById rid db = none →
      ReservationService.cancelReservation rid db =
        .error .reservationNotFound) := by
  refine ⟨findConfirmedById_facts, ?_, cancelReservation_notFound⟩
  rintro ⟨r2, hr2, hid, hst⟩
  have h2 : (db.reservations.find? (confirmedFilter rid)).isSome :=
    List.find?_isSome.mpr
      ⟨r2, hr2, by simp [confirmedFilter, hasReservationId, hid, hst]⟩
  exact Option.isSome_iff_exists.mp h2

/-- Witness for C8: a cancelled id and a never-created id both yield the
same `RESERVATION_NOT_FOUND` failure. -/
theorem claim8_not_found_indistinguishable_witness :
    ReservationRepository.findConfirmedById "a" cancelledOnlyDB = none ∧
    ReservationRepository.findConfirmedById "zz" cancelledOnlyDB = none ∧
    ReservationService.cancelReservation "a" cancelledOnlyDB =
      .error .reservationNotFound ∧
    ReservationService.cancelReservation "zz" cancelledOnlyDB =
      .error .reservationNotFound := by
  refine ⟨rfl, rfl, ?_, ?_⟩
  · exact (claim8_not_found_indistinguishable "a" cancelledOnlyDB
      { reservation_id := "a", event_id := "e1", partner_id := "p",
        seats := 1, status := .cancelled, created_at := 0,
        cancelled_at := some 1 }).2.2 rfl
  · exact (claim8_not_found_indistinguishable "zz" cancelledOnlyDB
      { reservation_id := "a", event_id := "e1", partner_id := "p",
        seats := 1, status := .cancelled, created_at := 0,
        cancelled_at := some 1 }).2.2 rfl

/-- C9: `getAllReservations` returns exactly the reservations of the
requested pool (cancelled ones included) ordered newest first by creation
time, and the `list` engine call modifies no stored state. -/
theorem claim9_list_newest_first (eventId : String) (db : DB) :
    (step db .list).snd.events = db.events ∧
    (step db .list).snd.reservations = db.reservations ∧
    List.Pairwise (fun a b =>
        b.createdAt ≤ a.createdAt)
      (ReservationService.getAllReservations eventId db) ∧
    List.Perm (ReservationService.getAllReservations eventId db)
      ((db.reservations.filter
        (fun r => decide (r.event_id = eventId))).map
          ReservationService.toView) := by
  refine ⟨rfl, rfl, ?_, ?_⟩
  · have hs := List.sorted_insertionSort ReservationService.newestFirst
      (db.reservations.filter (fun r => decide (r.event_id = eventId)))
    unfold ReservationService.getAllReservations
    rw [List.pairwise_map]
    refine List.Pairwise.imp ?_ hs
    intro a b hab
    exact hab
  · unfold ReservationService.getAllReservations
    exact List.Perm.map _ (List.perm_insertionSort _ _)

/-- C10: a conditional adjust on a pool id matching no stored record
returns `false` and writes nothing, raising no error; inside `cancel`, a
`false` from the conditional adjust surfaces as `ConcurrentModification`
(never as `PoolNotFound`), so a pool that vanishes between the initial read
and the conditional write is reported as a concurrency conflict. -/
theorem claim10_vanished_pool (eventId : String) (Δ v : Int) (db : DB)
    (r : Reservation) (e : Event) (mark : Bool)
    (h : EventRepository.findById eventId db = none) :
    EventRepository.updateSeatsWithVersion eventId Δ v db = (false, db) ∧
    cancelFlow (some r) (some e) mark false = .error .concurrentUpdate :=
  ⟨updateSeats_absent h, rfl⟩

/-- Witness for C10 at the seeded state and a nonexistent pool id. -/
theorem claim10_vanished_pool_witness :
    EventRepository.findById "ghost" initialDB = none ∧
    (EventRepository.updateSeatsWithVersion "ghost" (-3) 0 initialDB =
      (false, initialDB) ∧
    cancelFlow
      (some { reservation_id := "r1", event_id := "ghost",
              partner_id := "p1", seats := 2, status := .confirmed,
              created_at := 0, cancelled_at := none })
      (some seedEvent) true false = .error .concurrentUpdate) :=
  ⟨rfl, claim10_vanished_pool "ghost" (-3) 0 initialDB
    { reservation_id := "r1", event_id := "ghost", partner_id := "p1",
      seats := 2, status := .confirmed, created_at := 0,
      cancelled_at := none }
    seedEvent true rfl⟩

/-- C6: a successful conditional adjust increments the pool's version by
exactly 1 (from the expected version to its successor); an adjust presented
with an `expectedVersion` different from the stored version returns `false`
and leaves the store entirely unchanged. -/
theorem claim6_version_fence (eventId : String) (Δ v : Int) (db : DB)
    (e : Event) (hnd : (db.events.map Event.event_id).Nodup) :
    ((EventRepository.updateSeatsWithVersion eventId Δ v db).fst = true →
      (EventRepository.findById eventId db).map Event.version = some v ∧
      (EventRepository.findById eventId
        (EventRepository.updateSeatsWithVersion eventId Δ v db).snd).map
          Event.version = some (v + 1)) ∧
    (EventRepository.findById eventId db = some e → v ≠ e.version →
      EventRepository.updateSeatsWithVersion eventId Δ v db =
        (false, db)) := by
  constructor
  · intro h
    obtain ⟨e2, hf, hv, hb⟩ := (updateSeats_true_iff hnd).mp h
    have hafter := updateSeats_found_after hf hv hb
    refine ⟨by simp [hf, hv], ?_⟩
    rw [hafter.1]
    simp [applySeats, hv]
  · intro hf hv
    exact updateSeats_fail hf hnd
      (by simp [seatsFilter, Ne.symm hv])

/-- Witness for C6: a stale version (7, stored 0) on the seeded state. -/
theorem claim6_version_fence_witness :
    (EventRepository.findById DEFAULT_EVENT_ID initialDB = some seedEvent) ∧
    ((7:Int) ≠ seedEvent.version) ∧
    EventRepository.updateSeatsWithVersion DEFAULT_EVENT_ID (-3) 7
      initialDB = (false, initialDB) := by
  refine ⟨rfl, by decide, ?_⟩
  exact (claim6_version_fence DEFAULT_EVENT_ID (-3) 7 initialDB seedEvent
    (by decide)).2 rfl (by decide)

/-- C4: the reserve contract.  With the pool absent it fails with
`PoolNotFound`; with fewer available seats than requested it fails with
`InsufficientCapacity`; when the conditional adjust at the version read in
step 2 reports `false` (as a concurrent writer can cause) it fails with
`ConcurrentModification` (`reserveFlow` is the control flow of
`reserveSeats` with the repository call results as parameters); otherwise
it commits, inserting exactly one new confirmed reservation with the
requested units, and returns its freshly generated id. -/
theorem claim4_reserve_contract (eventId partnerId nid : String) (u : Int)
    (db : DB) (e : Event) (hu : 1 ≤ u) :
    (EventRepository.findById eventId db = none →
      ReservationService.reserveSeats eventId partnerId u db =
        .error .eventNotFound) ∧
    (EventRepository.findById eventId db = some e →
      e.available_seats < u →
      ReservationService.reserveSeats eventId partnerId u db =
        .error .notEnoughSeats) ∧
    (¬ e.available_seats < u →
      reserveFlow (some e) false nid u = .error .concurrentUpdate) ∧
    (EventRepository.findById eventId db = some e →
      ¬ e.available_seats < u →
      ∃ db2, ReservationService.reserveSeats eventId partnerId u db =
          .ok (mkId db.nextId, db2) ∧
        db2.reservations = db.reservations ++
          [{ reservation_id := mkId db.nextId
             event_id := eventId
             partner_id := partnerId
             seats := u
             status := .confirmed
             created_at := db.clock
             cancelled_at := none }]) := by
  refine ⟨reserveSeats_absent, reserveSeats_insufficient, ?_, ?_⟩
  · intro hav
    simp [reserveFlow, hav]
  · intro hf hav
    obtain ⟨l1, l2, hsplit, hl1, hres⟩ :=
      @reserveSeats_success eventId partnerId u db e hf hav
    exact ⟨_, hres, rfl⟩

/-- Witness for C4: reserving 5 seats on the seeded state succeeds and
appends exactly the expected confirmed reservation. -/
theorem claim4_reserve_contract_witness :
    1 ≤ (5:Int) ∧
    ∃ db2, ReservationService.reserveSeats DEFAULT_EVENT_ID "p1" 5
        initialDB = .ok (mkId initialDB.nextId, db2) ∧
      db2.reservations = initialDB.reservations ++
        [{ reservation_id := mkId initialDB.nextId
           event_id := DEFAULT_EVENT_ID
           partner_id := "p1"
           seats := 5
           status := .confirmed
           created_at := initialDB.clock
           cancelled_at := none }] := by
  refine ⟨by decide, ?_⟩
  exact (claim4_reserve_contract DEFAULT_EVENT_ID "p1" "x" 5 initialDB
    seedEvent (by decide)).2.2.2 rfl (by decide)

/-! ### Lookup helpers for split stores -/

theorem findById_split {eventId : String} {db : DB} {l1 l2 : List Event}
    {a : Event} (hsplit : db.events = l1 ++ a :: l2)
    (hl1 : ∀ x ∈ l1, hasEventId eventId x = false)
    (ha : hasEventId eventId a = true) :
    EventRepository.findById eventId db = some a := by
  show db.events.find? (hasEventId eventId) = some a
  rw [hsplit, find?_append_false hl1, List.find?_cons_of_pos _ ha]

theorem findConfirmed_split {rid : String} {db : DB}
    {m1 m2 : List Reservation} {a : Reservation}
    (hsplit : db.reservations = m1 ++ a :: m2)
    (hm1 : ∀ x ∈ m1, confirmedFilter rid x = false)
    (ha : confirmedFilter rid a = true) :
    ReservationRepository.findConfirmedById rid db = some a := by
  show db.reservations.find? (confirmedFilter rid) = some a
  rw [hsplit, find?_append_false hm1, List.find?_cons_of_pos _ ha]

theorem findConfirmed_none {rid : String} {db : DB}
    (h : ∀ x ∈ db.reservations, confirmedFilter rid x = false) :
    ReservationRepository.findConfirmedById rid db = none := by
  show db.reservations.find? (confirmedFilter rid) = none
  rw [List.find?_eq_none]
  intro x hx
  simp [h x hx]

/-- C7: from any state satisfying the engine invariant (every reachable
state does), if a reserve of `u` units succeeds returning `rid`, then an
immediately following `cancel rid` succeeds and restores the pool's
available seats to exactly their pre-reserve value, and a second
`cancel rid` after that fails with `RESERVATION_NOT_FOUND`. -/
theorem claim7_reserve_cancel_roundtrip {eventId partnerId : String}
    {u : Int} {db db1 : DB} {rid : String} (hinv : EngineInv db)
    (hok : ReservationService.reserveSeats eventId partnerId u db =
      .ok (rid, db1)) :
    ∃ db2, ReservationService.cancelReservation rid db1 = .ok db2 ∧
      (EventRepository.findById eventId db2).map Event.available_seats =
        (EventRepository.findById eventId db).map Event.available_seats ∧
      ReservationService.cancelReservation rid db2 =
        .error .reservationNotFound := by
  cases hf : EventRepository.findById eventId db with
  | none => simp [reserveSeats_absent hf] at hok
  | some e =>
    by_cases hav : e.available_seats < u
    · simp [reserveSeats_insufficient hf hav] at hok
    · obtain ⟨l1, l2, hsplit, hl1, hres⟩ :=
        @reserveSeats_success eventId partnerId u db e hf hav
      rw [hres] at hok
      injection hok with hok
      injection hok with hok1 hok2
      subst hok1
      have hdb1e : db1.events = l1 ++ applySeats (-u) db.clock e :: l2 := by
        rw [← hok2]
      have hdb1r : db1.reservations = db.reservations ++
          [{ reservation_id := mkId db.nextId
             event_id := eventId
             partner_id := partnerId
             seats := u
             status := .confirmed
             created_at := db.clock
             cancelled_at := none }] := by
        rw [← hok2]
      have hdb1c : db1.clock = db.clock := by rw [← hok2]
      have hemem : e ∈ db.events := (findById_facts hf).1
      have hnn : 0 ≤ e.available_seats := hinv.nonneg e hemem
      have hfreshNe : ∀ x ∈ db.reservations,
          x.reservation_id ≠ mkId db.nextId := by
        intro x hx hcon
        obtain ⟨k, hk, hid⟩ := hinv.fresh x hx
        rw [hid] at hcon
        exact absurd (mkId_injective hcon) (Nat.ne_of_lt hk)
      have hpref : ∀ x ∈ db.reservations,
          confirmedFilter (mkId db.nextId) x = false := by
        intro x hx
        simp [confirmedFilter, hasReservationId, hfreshNe x hx]
      have hfr1 : ReservationRepository.findConfirmedById (mkId db.nextId)
          db1 = some
          { reservation_id := mkId db.nextId
            event_id := eventId
            partner_id := partnerId
            seats := u
            status := .confirmed
            created_at := db.clock
            cancelled_at := none } := by
        refine findConfirmed_split hdb1r hpref ?_
        simp [confirmedFilter, hasReservationId]
      have hposE : hasEventId eventId (applySeats (-u) db.clock e) = true := by
        have h2 : hasEventId eventId e = true := List.find?_some hf
        simpa [hasEventId, applySeats] using h2
      have hfe1 : EventRepository.findById eventId db1 =
          some (applySeats (-u) db.clock e) :=
        findById_split hdb1e hl1 hposE
      have hndR1 : (db1.reservations.map Reservation.reservation_id).Nodup := by
        rw [hdb1r, List.map_append, List.nodup_append]
        refine ⟨hinv.rNodup, List.nodup_singleton _, ?_⟩
        intro a ha hb
        obtain ⟨x, hx, rfl⟩ := List.mem_map.mp ha
        have hxb : x.reservation_id = mkId db.nextId := by simpa using hb
        exact hfreshNe x hx hxb
      have hb1 : 0 ≤ (applySeats (-u) db.clock e).available_seats +
          ({ reservation_id := mkId db.nextId
             event_id := eventId
             partner_id := partnerId
             seats := u
             status := .confirmed
             created_at := db.clock
             cancelled_at := none } : Reservation).seats := by
        simp [applySeats]
        omega
      obtain ⟨m1, m2, l1', l2', hmsplit, hlsplit, hm1, hl1', hcres⟩ :=
        cancelReservation_success hfr1 hndR1 hfe1 hb1
      refine ⟨_, hcres, ?_, ?_⟩
      · -- available seats restored exactly
        have hl1p : ∀ x ∈ l1', hasEventId eventId x = false := hl1'
        have hposE2 : hasEventId eventId
            (applySeats u db1.clock (applySeats (-u) db.clock e)) = true := by
          have h2 : hasEventId eventId e = true := List.find?_some hf
          simpa [hasEventId, applySeats] using h2
        have hfe2 := @findById_split eventId
          { events := l1' ++ applySeats u db1.clock
              (applySeats (-u) db.clock e) :: l2'
            reservations := m1 ++ applyCancelled db1.clock
              { reservation_id := mkId db.nextId
                event_id := eventId
                partner_id := partnerId
                seats := u
                status := .confirmed
                created_at := db.clock
                cancelled_at := none } :: m2
            nextId := db1.nextId
            clock := db1.clock }
          l1' l2' (applySeats u db1.clock (applySeats (-u) db.clock e))
          rfl hl1p hposE2
        show (EventRepository.findById eventId
          { events := l1' ++ applySeats u db1.clock
              (applySeats (-u) db.clock e) :: l2'
            reservations := m1 ++ applyCancelled db1.clock
              { reservation_id := mkId db.nextId
                event_id := eventId
                partner_id := partnerId
                seats := u
                status := .confirmed
                created_at := db.clock
                cancelled_at := none } :: m2
            nextId := db1.nextId
            clock := db1.clock }).map Event.available_seats =
          (some e).map Event.available_seats
        rw [hfe2]
        simp [applySeats]
      · -- the second cancel fails: the reservation is now cancelled
        have hnone : ReservationRepository.findConfirmedById (mkId db.nextId)
            { events := l1' ++ applySeats u db1.clock
                (applySeats (-u) db.clock e) :: l2'
              reservations := m1 ++ applyCancelled db1.clock
                { reservation_id := mkId db.nextId
                  event_id := eventId
                  partner_id := partnerId
                  seats := u
                  status := .confirmed
                  created_at := db.clock
                  cancelled_at := none } :: m2
              nextId := db1.nextId
              clock := db1.clock } = none := by
          refine findConfirmed_none ?_
          intro x hx
          replace hx : x ∈ m1 ++ applyCancelled db1.clock
              { reservation_id := mkId db.nextId
                event_id := eventId
                partner_id := partnerId
                seats := u
                status := .confirmed
                created_at := db.clock
                cancelled_at := none } :: m2 := hx
          rcases mem_split_cases hx with rfl | hx2
          · simp [confirmedFilter, applyCancelled]
          · rcases hx2 with hx2 | hx2
            · simp [confirmedFilter, hm1 x hx2]
            · have h9 := (nodup_split_ne hndR1 hmsplit).2 x hx2
              have h10 : x.reservation_id ≠ mkId db.nextId := by
                simpa using h9
              simp [confirmedFilter, hasReservationId, h10]
        exact cancelReservation_notFound hnone

/-- Witness for C7: the round trip on the seeded state with 5 seats. -/
theorem claim7_reserve_cancel_roundtrip_witness :
    ∃ db2, ReservationService.cancelReservation (mkId 0) reservedDB =
        .ok db2 ∧
      (EventRepository.findById DEFAULT_EVENT_ID db2).map
          Event.available_seats =
        (EventRepository.findById DEFAULT_EVENT_ID initialDB).map
          Event.available_seats ∧
      ReservationService.cancelReservation (mkId 0) db2 =
        .error .reservationNotFound :=
  @claim7_reserve_cancel_roundtrip DEFAULT_EVENT_ID "p1" 5 initialDB
    reservedDB (mkId 0) inv_initialDB rfl
